import Mathlib

/-!
Verification of the Ray client-session proxier
(`python/ray/util/client/server/proxier.py`) against its specification.

The development shallowly embeds the proxier's data model and operations:

* the port pool (`getUnusedPort`, modelling `ProxyManager._get_unused_port`,
  with bind success given by an environment oracle `busy`),
* per-client backends (`SpecificServer`, with the one-shot process future
  modelled as an explicit `FutureState`),
* the session manager (`ProxyManager`: `servers` dictionary, free port list,
  `get_channel`, `has_channel`, one pass of the `_check_processes` reaper),
* the runtime-env provisioner retry loop (`createRuntimeEnv`),
* the data servicer's session state machine (`DataServicer`, the `Datapath`
  handler entry / reconnect / finalization critical sections),
* the raylet servicer's pre-session KV fallbacks, and the request-iterator
  and connection-info response adapters.

Python dictionaries are embedded as association lists with Python's
insertion-order update/delete semantics (`aset`, `aerase`, `amodify`);
blocking and exception outcomes are represented by explicit result types.
-/

namespace Proxier

/-! ## Association lists with Python dict semantics -/

/-- Dictionary lookup: value at the first entry with the given key. -/
def alookup {κ α : Type} [DecidableEq κ] : List (κ × α) → κ → Option α
  | [], _ => none
  | (k2, v) :: rest, k => if k2 = k then some v else alookup rest k

/-- Dictionary assignment `d[k] = v`: replaces in place when the key is
present (preserving insertion order), otherwise appends a new entry. -/
def aset {κ α : Type} [DecidableEq κ] : List (κ × α) → κ → α → List (κ × α)
  | [], k, v => [(k, v)]
  | (k2, w) :: rest, k, v =>
    if k2 = k then (k2, v) :: rest else (k2, w) :: aset rest k v

/-- Dictionary deletion `del d[k]`: removes the first entry with the key. -/
def aerase {κ α : Type} [DecidableEq κ] : List (κ × α) → κ → List (κ × α)
  | [], _ => []
  | (k2, w) :: rest, k => if k2 = k then rest else (k2, w) :: aerase rest k

/-- In-place update of the value stored under a key, when present.  This
models mutating an object that a dictionary entry aliases. -/
def amodify {κ α : Type} [DecidableEq κ] : List (κ × α) → κ → (α → α) → List (κ × α)
  | [], _, _ => []
  | (k2, v) :: rest, k, f =>
    if k2 = k then (k2, f v) :: rest else (k2, v) :: amodify rest k f

section AssocLemmas

variable {κ α : Type} [DecidableEq κ]

theorem alookup_aset_self (m : List (κ × α)) (k : κ) (v : α) :
    alookup (aset m k v) k = some v := by
  induction m with
  | nil => simp [aset, alookup]
  | cons e rest ih =>
    obtain ⟨k2, w⟩ := e
    by_cases h : k2 = k <;> simp [aset, alookup, h, ih]

theorem alookup_aset_ne (m : List (κ × α)) (k k' : κ) (v : α) (h : k' ≠ k) :
    alookup (aset m k v) k' = alookup m k' := by
  induction m with
  | nil =>
    simp only [aset, alookup]
    rw [if_neg (fun hk => h hk.symm)]
  | cons e rest ih =>
    obtain ⟨k2, w⟩ := e
    by_cases h2 : k2 = k
    · subst h2
      simp only [aset, if_pos rfl, alookup]
      by_cases h3 : k2 = k'
      · exact absurd h3.symm h
      · rw [if_neg h3, if_neg h3]
    · simp only [aset, if_neg h2, alookup]
      by_cases h3 : k2 = k'
      · rw [if_pos h3, if_pos h3]
      · rw [if_neg h3, if_neg h3, ih]

theorem alookup_eq_none_iff (m : List (κ × α)) (k : κ) :
    alookup m k = none ↔ k ∉ m.map Prod.fst := by
  induction m with
  | nil => simp [alookup]
  | cons e rest ih =>
    obtain ⟨k2, w⟩ := e
    by_cases h : k2 = k
    · subst h
      simp [alookup]
    · have hk : k ≠ k2 := fun hk => h hk.symm
      simp [alookup, h, ih, hk]

theorem keys_aset_of_mem (m : List (κ × α)) (k : κ) (v : α)
    (h : alookup m k ≠ none) :
    (aset m k v).map Prod.fst = m.map Prod.fst := by
  induction m with
  | nil => simp [alookup] at h
  | cons e rest ih =>
    obtain ⟨k2, w⟩ := e
    by_cases h2 : k2 = k
    · simp [aset, h2]
    · simp [alookup, h2] at h
      simp [aset, h2, ih h]

theorem keys_aset_of_not_mem (m : List (κ × α)) (k : κ) (v : α)
    (h : alookup m k = none) :
    (aset m k v).map Prod.fst = m.map Prod.fst ++ [k] := by
  induction m with
  | nil => simp [aset]
  | cons e rest ih =>
    obtain ⟨k2, w⟩ := e
    by_cases h2 : k2 = k
    · simp [alookup, h2] at h
    · simp [alookup, h2] at h
      simp [aset, h2, ih h]

theorem length_aset_of_mem (m : List (κ × α)) (k : κ) (v : α)
    (h : alookup m k ≠ none) :
    (aset m k v).length = m.length := by
  have := keys_aset_of_mem m k v h
  have h1 : ((aset m k v).map Prod.fst).length = (m.map Prod.fst).length := by
    rw [this]
  simpa using h1

theorem length_aset_of_not_mem (m : List (κ × α)) (k : κ) (v : α)
    (h : alookup m k = none) :
    (aset m k v).length = m.length + 1 := by
  have := keys_aset_of_not_mem m k v h
  have h1 : ((aset m k v).map Prod.fst).length = (m.map Prod.fst ++ [k]).length := by
    rw [this]
  simpa using h1

theorem aerase_sublist (m : List (κ × α)) (k : κ) : (aerase m k).Sublist m := by
  induction m with
  | nil => simp [aerase]
  | cons e rest ih =>
    obtain ⟨k2, w⟩ := e
    by_cases h : k2 = k
    · simp only [aerase, if_pos h]
      exact List.sublist_cons_self (k2, w) rest
    · simp only [aerase, if_neg h]
      exact ih.cons₂ (k2, w)

theorem length_aerase_of_mem (m : List (κ × α)) (k : κ)
    (h : alookup m k ≠ none) :
    m.length = (aerase m k).length + 1 := by
  induction m with
  | nil => simp [alookup] at h
  | cons e rest ih =>
    obtain ⟨k2, w⟩ := e
    by_cases h2 : k2 = k
    · simp [aerase, h2]
    · simp [alookup, h2] at h
      simp [aerase, h2, ih h]

theorem keys_aerase_nodup (m : List (κ × α)) (k : κ)
    (h : (m.map Prod.fst).Nodup) : ((aerase m k).map Prod.fst).Nodup :=
  h.sublist ((aerase_sublist m k).map Prod.fst)

theorem alookup_aerase_self_of_nodup (m : List (κ × α)) (k : κ)
    (h : (m.map Prod.fst).Nodup) : alookup (aerase m k) k = none := by
  induction m with
  | nil => simp [aerase, alookup]
  | cons e rest ih =>
    obtain ⟨k2, w⟩ := e
    simp only [List.map_cons, List.nodup_cons] at h
    by_cases h2 : k2 = k
    · subst h2
      rw [aerase, if_pos rfl, alookup_eq_none_iff]
      exact h.1
    · simp [aerase, alookup, h2, ih h.2]

theorem alookup_aerase_ne (m : List (κ × α)) (k k' : κ) (h : k' ≠ k) :
    alookup (aerase m k) k' = alookup m k' := by
  induction m with
  | nil => rfl
  | cons e rest ih =>
    obtain ⟨k2, w⟩ := e
    by_cases h2 : k2 = k
    · subst h2
      simp only [aerase]
      rw [if_pos trivial]
      simp only [alookup]
      rw [if_neg (fun hk => h hk.symm)]
    · simp only [aerase, if_neg h2, alookup]
      by_cases h3 : k2 = k'
      · rw [if_pos h3, if_pos h3]
      · rw [if_neg h3, if_neg h3, ih]

theorem keys_amodify (m : List (κ × α)) (k : κ) (f : α → α) :
    (amodify m k f).map Prod.fst = m.map Prod.fst := by
  induction m with
  | nil => simp [amodify]
  | cons e rest ih =>
    obtain ⟨k2, w⟩ := e
    by_cases h : k2 = k <;> simp [amodify, h, ih]

theorem alookup_amodify_self (m : List (κ × α)) (k : κ) (f : α → α) :
    alookup (amodify m k f) k = (alookup m k).map f := by
  induction m with
  | nil => simp [amodify, alookup]
  | cons e rest ih =>
    obtain ⟨k2, w⟩ := e
    by_cases h : k2 = k <;> simp [amodify, alookup, h, ih]

theorem mem_of_alookup_eq_some (m : List (κ × α)) (k : κ) (v : α)
    (h : alookup m k = some v) : (k, v) ∈ m := by
  induction m with
  | nil => simp [alookup] at h
  | cons e rest ih =>
    obtain ⟨k2, w⟩ := e
    by_cases h2 : k2 = k
    · subst h2
      rw [alookup, if_pos rfl, Option.some_inj] at h
      subst h
      exact List.mem_cons_self _ _
    · rw [alookup, if_neg h2] at h
      exact List.mem_cons_of_mem _ (ih h)

theorem alookup_filter_of_pred (m : List (κ × α)) (k : κ) (v : α)
    (p : κ × α → Bool) (h : alookup m k = some v) (hp : p (k, v) = true) :
    alookup (m.filter p) k = some v := by
  induction m with
  | nil => simp [alookup] at h
  | cons e rest ih =>
    obtain ⟨k2, w⟩ := e
    by_cases h2 : k2 = k
    · subst h2
      rw [alookup, if_pos rfl, Option.some_inj] at h
      subst h
      simp [List.filter, hp, alookup]
    · rw [alookup, if_neg h2] at h
      by_cases hw : p (k2, w) = true
      · simp [List.filter, hw, alookup, h2, ih h]
      · simp only [Bool.not_eq_true] at hw
        simp [List.filter, hw, ih h]

theorem alookup_filter_of_not_pred (m : List (κ × α)) (k : κ) (v : α)
    (p : κ × α → Bool) (hnd : (m.map Prod.fst).Nodup)
    (h : alookup m k = some v) (hp : p (k, v) = false) :
    alookup (m.filter p) k = none := by
  induction m with
  | nil => simp [alookup] at h
  | cons e rest ih =>
    obtain ⟨k2, w⟩ := e
    simp only [List.map_cons, List.nodup_cons] at hnd
    by_cases h2 : k2 = k
    · subst h2
      rw [alookup, if_pos rfl, Option.some_inj] at h
      subst h
      simp only [List.filter, hp]
      rw [alookup_eq_none_iff]
      intro hk
      exact hnd.1 ((List.mem_map.mp hk).elim (fun e2 he2 =>
        he2.2 ▸ List.mem_map_of_mem Prod.fst ((List.filter_sublist _).subset he2.1)))
    · rw [alookup, if_neg h2] at h
      by_cases hw : p (k2, w) = true
      · simp [List.filter, hw, alookup, h2, ih hnd.2 h]
      · simp only [Bool.not_eq_true] at hw
        simp [List.filter, hw, ih hnd.2 h]

end AssocLemmas

/-! ## Port pool: `ProxyManager._get_unused_port`

The environment is abstracted by an oracle `busy : Nat → Bool`; `busy p`
holds when the TCP bind to port `p` fails with `OSError`.  The source loop
runs `for _ in range(num_ports)` over `self._free_ports`, popping the head,
appending a busy port back to the tail, and returning the first port that
binds; when the pass is over it raises (modelled by `none`). -/

def getUnusedPortLoop (busy : Nat → Bool) : List Nat → Nat → Option (Nat × List Nat)
  | _, 0 => none
  | [], _ + 1 => none
  | p :: rest, n + 1 =>
    if busy p then getUnusedPortLoop busy (rest ++ [p]) n else some (p, rest)

/-- Model of `ProxyManager._get_unused_port`.  Returns the acquired port and
the remaining free list, or `none` when the `RuntimeError` is raised after
one full pass. -/
def getUnusedPort (busy : Nat → Bool) (free_ports : List Nat) : Option (Nat × List Nat) :=
  getUnusedPortLoop busy free_ports free_ports.length

theorem getUnusedPortLoop_none_of_all_busy (busy : Nat → Bool) :
    ∀ (n : Nat) (l : List Nat), (∀ p ∈ l, busy p = true) →
      getUnusedPortLoop busy l n = none := by
  intro n
  induction n with
  | zero => intro l _; cases l <;> rfl
  | succ n ih =>
    intro l hl
    match l with
    | [] => rfl
    | p :: rest =>
      rw [getUnusedPortLoop, if_pos (hl p (List.mem_cons_self p rest))]
      refine ih (rest ++ [p]) ?_
      intro q hq
      rcases List.mem_append.mp hq with h | h
      · exact hl q (List.mem_cons_of_mem p h)
      · rw [List.mem_singleton.mp h]
        exact hl p (List.mem_cons_self p rest)

theorem head_dropWhile_false (bf : Nat → Bool) :
    ∀ (l : List Nat) (p : Nat) (rest : List Nat),
      l.dropWhile bf = p :: rest → bf p = false := by
  intro l
  induction l with
  | nil => intro p rest h; simp [List.dropWhile] at h
  | cons a t ih =>
    intro p rest h
    by_cases ha : bf a
    · rw [List.dropWhile_cons_of_pos ha] at h
      exact ih p rest h
    · have ha2 : bf a = false := by
        revert ha; cases bf a <;> simp
      rw [List.dropWhile_cons_of_neg (by simp [ha2])] at h
      injection h with h1 h2
      subst h1
      exact ha2

theorem takeWhile_append_single_of_dropWhile_ne_nil (bf : Nat → Bool)
    (t : List Nat) (q : Nat) (h : t.dropWhile bf ≠ []) :
    (t ++ [q]).takeWhile bf = t.takeWhile bf ∧
      (t ++ [q]).dropWhile bf = t.dropWhile bf ++ [q] := by
  induction t with
  | nil => simp at h
  | cons a t ih =>
    by_cases ha : bf a
    · rw [List.dropWhile_cons_of_pos ha] at h
      obtain ⟨h1, h2⟩ := ih h
      constructor
      · rw [List.cons_append, List.takeWhile_cons_of_pos ha,
          List.takeWhile_cons_of_pos ha, h1]
      · rw [List.cons_append, List.dropWhile_cons_of_pos ha,
          List.dropWhile_cons_of_pos ha, h2]
    · have ha2 : bf a = false := by
        revert ha; cases bf a <;> simp
      constructor
      · rw [List.cons_append, List.takeWhile_cons_of_neg (by simp [ha2]),
          List.takeWhile_cons_of_neg (by simp [ha2])]
      · rw [List.cons_append, List.dropWhile_cons_of_neg (by simp [ha2]),
          List.dropWhile_cons_of_neg (by simp [ha2]), List.cons_append]

theorem getUnusedPortLoop_of_dropWhile (busy : Nat → Bool) :
    ∀ (n : Nat) (l : List Nat) (p : Nat) (rest : List Nat),
      l.dropWhile busy = p :: rest →
      (l.takeWhile busy).length < n →
      getUnusedPortLoop busy l n = some (p, rest ++ l.takeWhile busy) := by
  intro n
  induction n with
  | zero => intro l p rest _ h2; omega
  | succ n ih =>
    intro l p rest h1 h2
    match l with
    | [] => simp [List.dropWhile] at h1
    | q :: t =>
      by_cases hq : busy q
      · rw [List.dropWhile_cons_of_pos hq] at h1
        rw [List.takeWhile_cons_of_pos hq] at h2
        have hne : t.dropWhile busy ≠ [] := by rw [h1]; simp
        obtain ⟨htake, hdrop⟩ :=
          takeWhile_append_single_of_dropWhile_ne_nil busy t q hne
        have hrec := ih (t ++ [q]) p (rest ++ [q])
          (by rw [hdrop, h1]; simp)
          (by rw [htake]; simpa using h2)
        rw [htake] at hrec
        rw [getUnusedPortLoop, if_pos hq, hrec,
          List.takeWhile_cons_of_pos hq]
        simp
      · have hq2 : busy q = false := by
          revert hq; cases busy q <;> simp
        rw [List.dropWhile_cons_of_neg (by simp [hq2])] at h1
        obtain ⟨rfl, rfl⟩ : q = p ∧ t = rest := by
          constructor <;> [exact (List.cons.injEq .. ▸ h1).1;
            exact (List.cons.injEq .. ▸ h1).2]
        rw [getUnusedPortLoop, if_neg (by simp [hq2]),
          List.takeWhile_cons_of_neg (by simp [hq2])]
        simp

/-- Claim C3: the port-acquire scan visits the free list in insertion order,
rotates each `OSError` port to the tail, stops with `PortExhausted` after at
most one full pass (it is a total function of the list), removes the
returned port from the free list, and succeeds exactly when some port in
the list binds. -/
theorem getUnusedPort_insertion_order_one_pass (busy : Nat → Bool)
    (l : List Nat) (hnd : l.Nodup) :
    (getUnusedPort busy l = none ↔ ∀ p ∈ l, busy p = true) ∧
    (∀ p l2, getUnusedPort busy l = some (p, l2) →
      busy p = false ∧
      ∃ pre suf, l = pre ++ p :: suf ∧ (∀ q ∈ pre, busy q = true) ∧
        l2 = suf ++ pre ∧ p ∉ l2) := by
  constructor
  · constructor
    · intro hnone
      by_contra hne
      push_neg at hne
      obtain ⟨p, hp, hbp⟩ := hne
      have hbp2 : busy p = false := by
        revert hbp; cases busy p <;> simp
      have hdrop : l.dropWhile busy ≠ [] := by
        rw [Ne, List.dropWhile_eq_nil_iff]
        push_neg
        exact ⟨p, hp, by simp [hbp2]⟩
      match hd : l.dropWhile busy with
      | [] => exact hdrop hd
      | q :: rest =>
        have hlen : (l.takeWhile busy).length < l.length := by
          have := congrArg List.length (List.takeWhile_append_dropWhile (p := busy) (l := l))
          rw [hd] at this
          simp at this
          omega
        rw [getUnusedPort, getUnusedPortLoop_of_dropWhile busy l.length l q rest hd hlen]
          at hnone
        exact Option.noConfusion hnone
    · intro hall
      exact getUnusedPortLoop_none_of_all_busy busy l.length l hall
  · intro p l2 hsome
    match hd : l.dropWhile busy with
    | [] =>
      rw [getUnusedPort,
        getUnusedPortLoop_none_of_all_busy busy l.length l
          (List.dropWhile_eq_nil_iff.mp hd)] at hsome
      exact Option.noConfusion hsome
    | q :: rest =>
      have hlen : (l.takeWhile busy).length < l.length := by
        have := congrArg List.length (List.takeWhile_append_dropWhile (p := busy) (l := l))
        rw [hd] at this
        simp at this
        omega
      rw [getUnusedPort, getUnusedPortLoop_of_dropWhile busy l.length l q rest hd hlen,
        Option.some_inj] at hsome
      have hqp : q = p := congrArg Prod.fst hsome
      have hl2 : rest ++ l.takeWhile busy = l2 := congrArg Prod.snd hsome
      subst hqp
      subst hl2
      have hsplit : l = l.takeWhile busy ++ q :: rest := by
        rw [← hd, List.takeWhile_append_dropWhile]
      have hbusyp : busy q = false := head_dropWhile_false busy l q rest hd
      refine ⟨hbusyp, l.takeWhile busy, rest, hsplit, ?_, rfl, ?_⟩
      · intro x hx
        exact List.mem_takeWhile_imp hx
      · have hnd2 : (l.takeWhile busy ++ q :: rest).Nodup := hsplit ▸ hnd
        intro hmem
        rcases List.mem_append.mp hmem with h | h
        · exact (List.nodup_cons.mp hnd2.of_append_right).1 h
        · exact List.disjoint_of_nodup_append hnd2 h (List.mem_cons_self q rest)

/-- Witness for the C3 theorem at a concrete free list: with ports `[2, 3]`
and port 2 busy, the scan skips 2, returns 3, and removes it from the list. -/
theorem getUnusedPort_insertion_order_one_pass_witness :
    (fun p => decide (p = 2)) 3 = false ∧
    ∃ pre suf, [2, 3] = pre ++ 3 :: suf ∧
      (∀ q ∈ pre, (fun p => decide (p = 2)) q = true) ∧
      [2] = suf ++ pre ∧ 3 ∉ [2] :=
  (getUnusedPort_insertion_order_one_pass (fun p => decide (p = 2)) [2, 3]
    (by decide)).2 3 [2] (by decide)

/-! ## Backend handles: `SpecificServer`

The `process_handle_future` is a one-shot `concurrent.futures.Future`
holding either a `ProcessInfo` (the spawned process) or `None`, the failure
sentinel.  `FutureState.unset` is a future whose result has not been set;
observers of an unset future block (or time out). -/

/-- Observation of the spawned OS process: `exit` is the exit code when the
process has terminated, `none` while it is still running. -/
structure ProcessInfo where
  exit : Option Int
deriving DecidableEq, Repr

/-- State of a one-shot `futures.Future` holding an `Option α`. -/
inductive FutureState (α : Type)
  | unset
  | resolved (value : Option α)
deriving DecidableEq, Repr

/-- Model of `SpecificServer`: the allocated port and the process future.
The gRPC channel to `127.0.0.1:port` is identified by the port. -/
structure SpecificServer where
  port : Nat
  process_handle_future : FutureState ProcessInfo
deriving DecidableEq, Repr

/-- Model of `SpecificServer.is_ready`: the future is done. -/
def SpecificServer.is_ready (s : SpecificServer) : Bool :=
  match s.process_handle_future with
  | .unset => false
  | .resolved _ => true

/-- Outcome of `SpecificServer.wait_ready` (no timeout is passed by
`get_channel`): block while unset, raise `RuntimeError` on the `None`
failure sentinel, return otherwise. -/
inductive WaitReadyOutcome
  | blocked
  | ok (proc : ProcessInfo)
  | startupError (msg : String)
deriving DecidableEq, Repr

/-- Model of `SpecificServer.wait_ready`. -/
def SpecificServer.wait_ready (s : SpecificServer) : WaitReadyOutcome :=
  match s.process_handle_future with
  | .unset => .blocked
  | .resolved none => .startupError "Server startup failed."
  | .resolved (some proc) => .ok proc

/-- Model of `SpecificServer.poll`: `none` both while the future is unset
(the 0.1 s result wait times out) and when it resolved to the `None`
sentinel (the `if proc is not None` guard falls through); otherwise the
process's exit status. -/
def SpecificServer.poll (s : SpecificServer) : Option Int :=
  match s.process_handle_future with
  | .unset => none
  | .resolved none => none
  | .resolved (some proc) => proc.exit

/-- Model of `SpecificServer.set_result`: sets the future if unset,
otherwise a no-op. -/
def SpecificServer.set_result (s : SpecificServer) (proc : Option ProcessInfo) :
    SpecificServer :=
  if s.is_ready then s else { s with process_handle_future := .resolved proc }

/-! ## Session manager: `ProxyManager` -/

/-- Default port range `[23000, 24000)`. -/
def MIN_SPECIFIC_SERVER_PORT : Nat := 23000

def MAX_SPECIFIC_SERVER_PORT : Nat := 24000

/-- Mutable state of `ProxyManager`: the session table and the free list. -/
structure ProxyManager where
  servers : List (String × SpecificServer)
  free_ports : List Nat
deriving DecidableEq, Repr

/-- Model of `ProxyManager._get_server_for_client`. -/
def ProxyManager.get_server_for_client (pm : ProxyManager) (client_id : String) :
    Option SpecificServer :=
  alookup pm.servers client_id

/-- Model of `ProxyManager.has_channel`: a server exists and its process
future is done. -/
def ProxyManager.has_channel (pm : ProxyManager) (client_id : String) : Bool :=
  match pm.get_server_for_client client_id with
  | none => false
  | some server => server.is_ready

/-- Outcome of `ProxyManager.get_channel` as observed by a caller. -/
inductive GetChannelOutcome
  | noChannel                      -- returns None
  | channel (port : Nat)           -- returns server.channel
  | raised (msg : String)          -- an exception propagates to the caller
  | blocked                        -- wait_ready never returns
deriving DecidableEq, Repr

/-- Model of `ProxyManager.get_channel`.  `channelReady` is the environment
oracle for `grpc.channel_ready_future(...).result(timeout=30)` succeeding
within `CHECK_CHANNEL_TIMEOUT_S`.  Note that `server.wait_ready()` is
called outside the `try`, so its `RuntimeError` propagates. -/
def ProxyManager.get_channel (pm : ProxyManager) (client_id : String)
    (channelReady : Bool) : GetChannelOutcome :=
  match pm.get_server_for_client client_id with
  | none => .noChannel
  | some server =>
    match server.wait_ready with
    | .blocked => .blocked
    | .startupError msg => .raised msg
    | .ok _ => if channelReady then .channel server.port else .noChannel

/-- Model of one pass of the `ProxyManager._check_processes` reaper loop
body: every server whose `poll()` is non-`None` is deleted from `servers`
and its port appended to `free_ports`. -/
def ProxyManager.check_processes_pass (pm : ProxyManager) : ProxyManager :=
  { servers := pm.servers.filter (fun e => e.2.poll.isNone),
    free_ports := pm.free_ports ++
      (pm.servers.filter (fun e => e.2.poll.isSome)).map (fun e => e.2.port) }

/-- Outcome of `ProxyManager.create_specific_server`. -/
inductive CreateServerOutcome
  | created (server : SpecificServer) (pm : ProxyManager)
  | assertionFailed                -- a server already exists for the client
  | portExhausted                  -- `_get_unused_port` raised; state unchanged
deriving Repr

/-- Model of `ProxyManager.create_specific_server`: asserts that no server
is registered, draws a port, registers a server with an unset future and a
pre-opened channel.  When `_get_unused_port` raises, the free list is left
as found (one full rotation restores the original order). -/
def ProxyManager.create_specific_server (pm : ProxyManager) (busy : Nat → Bool)
    (client_id : String) : CreateServerOutcome :=
  match alookup pm.servers client_id with
  | some _ => .assertionFailed
  | none =>
    match getUnusedPort busy pm.free_ports with
    | none => .portExhausted
    | some (port, remaining) =>
      let server : SpecificServer := { port := port, process_handle_future := .unset }
      .created server
        { servers := aset pm.servers client_id server, free_ports := remaining }

/-! ## Claim C2: `get_channel` failure modes -/

/-- A manager holding one backend whose process future has resolved to the
`None` failure sentinel (as finalization leaves it after a failed init). -/
def failedBackendManager : ProxyManager :=
  { servers := [("c1", { port := 23000, process_handle_future := .resolved none })],
    free_ports := [] }

/-- Counterexample to claim C2: with a backend whose process future holds
the failure sentinel, `has_channel` is true but `get_channel` raises the
`RuntimeError` from `wait_ready` instead of returning a null channel —
whatever the channel-readiness oracle says. -/
theorem get_channel_raises_on_startup_failure :
    failedBackendManager.has_channel "c1" = true ∧
    failedBackendManager.get_channel "c1" true = .raised "Server startup failed." ∧
    failedBackendManager.get_channel "c1" false = .raised "Server startup failed." := by
  refine ⟨rfl, rfl, rfl⟩

/-- Claim C2 (amended): `get_channel` surfaces an absent backend and a
channel-readiness timeout as a null channel, but a process future resolved
to the failure sentinel (StartupFailed) as a raised `RuntimeError`; hence
when `has_channel` is true a subsequent `get_channel` returns the channel,
returns null, or raises — it does not block, but it can raise. -/
theorem get_channel_failure_modes (pm : ProxyManager) (c : String) (ready : Bool) :
    (alookup pm.servers c = none → pm.get_channel c ready = .noChannel) ∧
    (∀ s, alookup pm.servers c = some s →
      s.process_handle_future = .resolved none →
      pm.get_channel c ready = .raised "Server startup failed.") ∧
    (∀ s proc, alookup pm.servers c = some s →
      s.process_handle_future = .resolved (some proc) →
      pm.get_channel c ready = (if ready then .channel s.port else .noChannel)) ∧
    (pm.has_channel c = true →
      pm.get_channel c ready = .noChannel ∨
      pm.get_channel c ready = .raised "Server startup failed." ∨
      ∃ s, alookup pm.servers c = some s ∧ pm.get_channel c ready = .channel s.port) := by
  refine ⟨?_, ?_, ?_, ?_⟩
  · intro h
    unfold ProxyManager.get_channel ProxyManager.get_server_for_client
    rw [h]
  · intro s hs hfut
    unfold ProxyManager.get_channel ProxyManager.get_server_for_client
    rw [hs]
    simp [SpecificServer.wait_ready, hfut]
  · intro s proc hs hfut
    unfold ProxyManager.get_channel ProxyManager.get_server_for_client
    rw [hs]
    simp [SpecificServer.wait_ready, hfut]
  · intro hhc
    unfold ProxyManager.has_channel ProxyManager.get_server_for_client at hhc
    match hl : alookup pm.servers c with
    | none =>
      rw [hl] at hhc
      exact Bool.noConfusion hhc
    | some s =>
      rw [hl] at hhc
      match hfut : s.process_handle_future with
      | .unset =>
        exfalso
        simp [SpecificServer.is_ready, hfut] at hhc
      | .resolved none =>
        right; left
        unfold ProxyManager.get_channel ProxyManager.get_server_for_client
        rw [hl]
        simp [SpecificServer.wait_ready, hfut]
      | .resolved (some proc) =>
        match ready with
        | true =>
          right; right
          refine ⟨s, rfl, ?_⟩
          unfold ProxyManager.get_channel ProxyManager.get_server_for_client
          rw [hl]
          simp [SpecificServer.wait_ready, hfut]
        | false =>
          left
          unfold ProxyManager.get_channel ProxyManager.get_server_for_client
          rw [hl]
          simp [SpecificServer.wait_ready, hfut]

/-- Witness for the amended C2 theorem: on `failedBackendManager` the
sentinel case applies and yields the raised error. -/
theorem get_channel_failure_modes_witness :
    failedBackendManager.get_channel "c1" true = .raised "Server startup failed." :=
  (get_channel_failure_modes failedBackendManager "c1" true).2.1
    { port := 23000, process_handle_future := .resolved none } rfl rfl

/-! ## Runtime-env provisioner: `ProxyManager._create_runtime_env`

The HTTP agent is abstracted by `reply : Nat → AgentReply`, giving the
outcome of the POST on each attempt (0-indexed).  The source loop runs
`while retries <= max_retries` with `max_retries = 5`; a `URLError`
(transport failure) sleeps `wait_time_s` (initially 0.5 s) and doubles it;
an OK reply returns the context; a FAILED reply raises a `RuntimeError`
that the `except urllib.error.URLError` clause does not catch; any other
status trips `assert False`.  Sleeps are recorded in half-second units. -/

/-- Outcome of one `POST /get_or_create_runtime_env` attempt. -/
inductive AgentReply
  | transportFailure                    -- urllib.error.URLError
  | ok (ctx : String)                   -- AGENT_RPC_STATUS_OK
  | failed (msg : String)               -- AGENT_RPC_STATUS_FAILED
  | unknownStatus (status : Nat)        -- any other status
deriving DecidableEq, Repr

/-- Final outcome of `_create_runtime_env`. -/
inductive EnvResult
  | context (ctx : String)              -- returned serialized_runtime_env_context
  | agentFailed (msg : String)          -- RuntimeError from a FAILED reply
  | protocolViolation (status : Nat)    -- AssertionError on an unknown status
  | agentUnreachable                    -- TimeoutError after exhausting retries
deriving DecidableEq, Repr

/-- Trace of one `_create_runtime_env` call: outcome, number of HTTP
attempts made, and the sleeps performed, in half-second units. -/
structure EnvCallTrace where
  result : EnvResult
  attempts : Nat
  waits : List Nat
deriving DecidableEq, Repr

/-- The retry loop of `_create_runtime_env`.  `attemptIdx` counts attempts
made so far, `remaining` is the number of loop iterations left
(`max_retries + 1 - retries`), `waitUnits` is `wait_time_s` in half-second
units. -/
def createEnvLoop (reply : Nat → AgentReply) :
    Nat → Nat → Nat → EnvCallTrace
  | _, 0, _ => { result := .agentUnreachable, attempts := 0, waits := [] }
  | attemptIdx, remaining + 1, waitUnits =>
    match reply attemptIdx with
    | .ok ctx => { result := .context ctx, attempts := 1, waits := [] }
    | .failed msg => { result := .agentFailed msg, attempts := 1, waits := [] }
    | .unknownStatus s => { result := .protocolViolation s, attempts := 1, waits := [] }
    | .transportFailure =>
      let t := createEnvLoop reply (attemptIdx + 1) remaining (waitUnits * 2)
      { result := t.result, attempts := t.attempts + 1, waits := waitUnits :: t.waits }

/-- Model of `ProxyManager._create_runtime_env`: up to `max_retries + 1 = 6`
attempts, initial wait one half-second. -/
def createRuntimeEnv (reply : Nat → AgentReply) : EnvCallTrace :=
  createEnvLoop reply 0 6 1

theorem createEnvLoop_attempts_le (reply : Nat → AgentReply) :
    ∀ (remaining attemptIdx waitUnits : Nat),
      (createEnvLoop reply attemptIdx remaining waitUnits).attempts ≤ remaining := by
  intro remaining
  induction remaining with
  | zero => intro i w; exact Nat.le_refl 0
  | succ n ih =>
    intro i w
    rw [createEnvLoop]
    match reply i with
    | .ok ctx => exact Nat.le_add_left 1 n
    | .failed msg => exact Nat.le_add_left 1 n
    | .unknownStatus s => exact Nat.le_add_left 1 n
    | .transportFailure => exact Nat.succ_le_succ (ih (i + 1) (w * 2))

theorem createEnvLoop_immediate (reply : Nat → AgentReply) :
    ∀ (k remaining attemptIdx waitUnits : Nat) (r : AgentReply),
      k < remaining →
      (∀ j, j < k → reply (attemptIdx + j) = .transportFailure) →
      reply (attemptIdx + k) = r →
      r ≠ .transportFailure →
      createEnvLoop reply attemptIdx remaining waitUnits =
        { result :=
            match r with
            | .ok ctx => .context ctx
            | .failed msg => .agentFailed msg
            | .unknownStatus s => .protocolViolation s
            | .transportFailure => .agentUnreachable,
          attempts := k + 1,
          waits := (List.range k).map (fun j => waitUnits * 2 ^ j) } := by
  intro k
  induction k with
  | zero =>
    intro remaining i w r hlt hpre hr hne
    match remaining with
    | 0 => omega
    | n + 1 =>
      rw [createEnvLoop]
      rw [Nat.add_zero] at hr
      rw [hr]
      match r with
      | .ok ctx => simp
      | .failed msg => simp
      | .unknownStatus s => simp
      | .transportFailure => exact absurd rfl hne
  | succ k ih =>
    intro remaining i w r hlt hpre hr hne
    match remaining with
    | 0 => omega
    | n + 1 =>
      have h0 : reply i = .transportFailure := by
        have := hpre 0 (Nat.succ_pos k)
        rwa [Nat.add_zero] at this
      rw [createEnvLoop, h0]
      have hrec := ih n (i + 1) (w * 2) r (by omega)
        (fun j hj => by
          have := hpre (j + 1) (by omega)
          rwa [show i + (j + 1) = i + 1 + j by omega] at this)
        (by rwa [show i + 1 + k = i + (k + 1) by omega])
        hne
      rw [hrec]
      simp only [EnvCallTrace.mk.injEq]
      refine ⟨trivial, trivial, ?_⟩
      rw [List.range_succ_eq_map]
      simp only [List.map_cons, List.map_map]
      rw [Nat.pow_zero, Nat.mul_one]
      refine congrArg (w :: ·) (List.map_congr_left ?_)
      intro j hj
      simp [Function.comp, Nat.pow_succ]
      ring

theorem createEnvLoop_exhausted (reply : Nat → AgentReply) :
    ∀ (remaining attemptIdx waitUnits : Nat),
      (∀ j, j < remaining → reply (attemptIdx + j) = .transportFailure) →
      createEnvLoop reply attemptIdx remaining waitUnits =
        { result := .agentUnreachable, attempts := remaining,
          waits := (List.range remaining).map (fun j => waitUnits * 2 ^ j) } := by
  intro remaining
  induction remaining with
  | zero => intro i w _; rfl
  | succ n ih =>
    intro i w hpre
    have h0 : reply i = .transportFailure := by
      have := hpre 0 (Nat.succ_pos n)
      rwa [Nat.add_zero] at this
    rw [createEnvLoop, h0]
    have hrec := ih (i + 1) (w * 2) (fun j hj => by
      have := hpre (j + 1) (by omega)
      rwa [show i + (j + 1) = i + 1 + j by omega] at this)
    rw [hrec]
    simp only [EnvCallTrace.mk.injEq]
    refine ⟨trivial, trivial, ?_⟩
    rw [List.range_succ_eq_map]
    simp only [List.map_cons, List.map_map]
    rw [Nat.pow_zero, Nat.mul_one]
    refine congrArg (w :: ·) (List.map_congr_left ?_)
    intro j hj
    simp [Function.comp, Nat.pow_succ]
    ring

/-- Claim C4: `_create_runtime_env` makes at most 5 retries after the first
attempt; the wait before the k-th retry is `2 ^ (k-1)` half-seconds (0.5,
1, 2, 4, 8 s before retries 1..5); an OK reply returns its context; a
FAILED reply fails immediately with the embedded message and is never
retried; any other status is fatal; exhaustion yields the unreachable
(TimeoutError) outcome.  Waits are listed in half-second units, including
the final sleep performed before the TimeoutError is raised. -/
theorem createRuntimeEnv_retry_policy (reply : Nat → AgentReply) :
    (createRuntimeEnv reply).attempts ≤ 6 ∧
    (∀ k ctx, k < 6 → (∀ j, j < k → reply j = .transportFailure) →
      reply k = .ok ctx →
      createRuntimeEnv reply =
        { result := .context ctx, attempts := k + 1,
          waits := (List.range k).map (fun j => 2 ^ j) }) ∧
    (∀ k msg, k < 6 → (∀ j, j < k → reply j = .transportFailure) →
      reply k = .failed msg →
      createRuntimeEnv reply =
        { result := .agentFailed msg, attempts := k + 1,
          waits := (List.range k).map (fun j => 2 ^ j) }) ∧
    (∀ k s, k < 6 → (∀ j, j < k → reply j = .transportFailure) →
      reply k = .unknownStatus s →
      createRuntimeEnv reply =
        { result := .protocolViolation s, attempts := k + 1,
          waits := (List.range k).map (fun j => 2 ^ j) }) ∧
    ((∀ j, j < 6 → reply j = .transportFailure) →
      createRuntimeEnv reply =
        { result := .agentUnreachable, attempts := 6,
          waits := [1, 2, 4, 8, 16, 32] }) := by
  have hone : ∀ k, (List.range k).map (fun j => 1 * 2 ^ j) =
      (List.range k).map (fun j => 2 ^ j) := by
    intro k
    refine List.map_congr_left ?_
    intro j hj
    rw [Nat.one_mul]
  refine ⟨createEnvLoop_attempts_le reply 6 0 1, ?_, ?_, ?_, ?_⟩
  · intro k ctx hk hpre hr
    have := createEnvLoop_immediate reply k 6 0 1 (.ok ctx) hk
      (fun j hj => by rw [Nat.zero_add]; exact hpre j hj)
      (by rwa [Nat.zero_add]) (by intro h; exact AgentReply.noConfusion h)
    rw [createRuntimeEnv, this, hone k]
  · intro k msg hk hpre hr
    have := createEnvLoop_immediate reply k 6 0 1 (.failed msg) hk
      (fun j hj => by rw [Nat.zero_add]; exact hpre j hj)
      (by rwa [Nat.zero_add]) (by intro h; exact AgentReply.noConfusion h)
    rw [createRuntimeEnv, this, hone k]
  · intro k s hk hpre hr
    have := createEnvLoop_immediate reply k 6 0 1 (.unknownStatus s) hk
      (fun j hj => by rw [Nat.zero_add]; exact hpre j hj)
      (by rwa [Nat.zero_add]) (by intro h; exact AgentReply.noConfusion h)
    rw [createRuntimeEnv, this, hone k]
  · intro hpre
    have := createEnvLoop_exhausted reply 6 0 1
      (fun j hj => by rw [Nat.zero_add]; exact hpre j hj)
    rw [createRuntimeEnv, this]
    simp only [EnvCallTrace.mk.injEq]
    exact ⟨trivial, trivial, by decide⟩

/-- Witness for the C4 theorem: the agent refuses the first two POSTs and
succeeds on the third (the spec's retry-then-success scenario); the call
returns the context after waits of 0.5 s and 1 s (1 and 2 half-seconds). -/
theorem createRuntimeEnv_retry_policy_witness :
    createRuntimeEnv
        (fun j => if j < 2 then .transportFailure else .ok "ctx-xyz") =
      { result := .context "ctx-xyz", attempts := 3, waits := [1, 2] } := by
  have h := (createRuntimeEnv_retry_policy
    (fun j => if j < 2 then .transportFailure else .ok "ctx-xyz")).2.1
    2 "ctx-xyz" (by decide)
    (fun j hj => by
      have hj2 : j < 2 := hj
      simp [hj2])
    (by simp)
  rw [h]
  simp only [EnvCallTrace.mk.injEq]
  exact ⟨trivial, trivial, by decide⟩

/-! ## Data servicer: `DataServicerProxy` session state

State guarded by `clients_lock`, together with the `ProxyManager` state.
Stream start times are modelled as naturals (`time.time()` readings). -/

/-- Mutable state of `DataServicerProxy`. -/
structure DataServicer where
  num_clients : Int
  clients_last_seen : List (String × Nat)
  reconnect_grace_periods : List (String × Nat)
deriving DecidableEq, Repr

/-- Combined proxier state touched by the `Datapath` handler. -/
structure SystemState where
  pm : ProxyManager
  ds : DataServicer
deriving DecidableEq, Repr

/-- Outcome of the reconnecting branch of `Datapath` (lines 671-686). -/
inductive ReconnectOutcome
  | notFound (details : String)    -- context set to NOT_FOUND and the handler returns
  | proceed (server : Option SpecificServer) (channel : GetChannelOutcome)
deriving DecidableEq, Repr

/-- Model of the reconnecting branch of `Datapath`: under `clients_lock`,
a client id absent from `clients_last_seen` closes with NOT_FOUND and
changes nothing; otherwise the last-seen time is updated to this stream's
start time and the existing server and channel are looked up. -/
def datapathReconnectEntry (st : SystemState) (client_id : String)
    (start_time : Nat) (channelReady : Bool) : SystemState × ReconnectOutcome :=
  match alookup st.ds.clients_last_seen client_id with
  | none =>
    (st, .notFound "Attempted to reconnect a session that has already been cleaned up")
  | some _ =>
    let seen2 := aset st.ds.clients_last_seen client_id start_time
    let st2 : SystemState := { st with ds := { st.ds with clients_last_seen := seen2 } }
    (st2, .proceed (st2.pm.get_server_for_client client_id)
      (st2.pm.get_channel client_id channelReady))

/-- Outcome of the non-reconnecting entry of `Datapath` (lines 687-692). -/
inductive NewConnOutcome
  | registered (server : SpecificServer)
  | assertionFailed                -- create_specific_server assertion fires
  | portExhausted                  -- _get_unused_port raised
deriving Repr

/-- Model of the non-reconnecting entry of `Datapath`: create the
placeholder server (registering it and drawing a port), then under
`clients_lock` record the start time and increment `num_clients`.  When
`create_specific_server` raises, the exception propagates before the
clients-lock section runs. -/
def datapathNewEntry (st : SystemState) (busy : Nat → Bool) (client_id : String)
    (start_time : Nat) : SystemState × NewConnOutcome :=
  match st.pm.create_specific_server busy client_id with
  | .assertionFailed => (st, .assertionFailed)
  | .portExhausted => (st, .portExhausted)
  | .created server pm2 =>
    (⟨pm2,
      { num_clients := st.ds.num_clients + 1,
        clients_last_seen := aset st.ds.clients_last_seen client_id start_time,
        reconnect_grace_periods := st.ds.reconnect_grace_periods }⟩,
      .registered server)

/-- Model of recording the declared grace period from the init request
(lines 698-701): `reconnect_grace_periods[client_id] = grace`. -/
def datapathRecordGrace (st : SystemState) (client_id : String) (grace : Nat) :
    SystemState :=
  let grace2 := aset st.ds.reconnect_grace_periods client_id grace
  { st with ds := { st.ds with reconnect_grace_periods := grace2 } }

/-- Model of the `finally` cleanup of `Datapath` (lines 762-781), the part
under `clients_lock`: skip when the client is unknown or a newer stream has
taken over; otherwise decrement `num_clients`, delete the last-seen and
grace entries, and resolve the stream's server future to the `None`
failure sentinel.  The handler-local `server` variable aliases the

registered entry for this client, which `amodify` expresses. -/
def datapathFinalize (st : SystemState) (client_id : String) (start_time : Nat) :
    SystemState :=
  match alookup st.ds.clients_last_seen client_id with
  | none => st
  | some last_seen =>
    if start_time < last_seen then st
    else
      { pm :=
          { st.pm with
            servers := amodify st.pm.servers client_id (fun s => s.set_result none) },
        ds :=
          { num_clients := st.ds.num_clients - 1,
            clients_last_seen := aerase st.ds.clients_last_seen client_id,
            reconnect_grace_periods := aerase st.ds.reconnect_grace_periods client_id } }

theorem datapathFinalize_none (st : SystemState) (c : String) (t : Nat)
    (h : alookup st.ds.clients_last_seen c = none) :
    datapathFinalize st c t = st := by
  unfold datapathFinalize
  rw [h]

theorem datapathFinalize_newer (st : SystemState) (c : String) (t last_seen : Nat)
    (h : alookup st.ds.clients_last_seen c = some last_seen) (hlt : t < last_seen) :
    datapathFinalize st c t = st := by
  unfold datapathFinalize
  rw [h]
  exact if_pos hlt

theorem datapathFinalize_cleanup (st : SystemState) (c : String) (t last_seen : Nat)
    (h : alookup st.ds.clients_last_seen c = some last_seen) (hlt : ¬ t < last_seen) :
    datapathFinalize st c t =
      { pm :=
          { st.pm with
            servers := amodify st.pm.servers c (fun s => s.set_result none) },
        ds :=
          { num_clients := st.ds.num_clients - 1,
            clients_last_seen := aerase st.ds.clients_last_seen c,
            reconnect_grace_periods := aerase st.ds.reconnect_grace_periods c } } := by
  unfold datapathFinalize
  rw [h]
  exact if_neg hlt

/-- One `clients_lock`-atomic operation of the `Datapath` handler. -/
inductive DatapathOp
  | newEntry (busy : Nat → Bool) (client_id : String) (start_time : Nat)
  | reconnectEntry (client_id : String) (start_time : Nat) (channelReady : Bool)
  | recordGrace (client_id : String) (grace : Nat)
  | finalize (client_id : String) (start_time : Nat)

/-- Transition function of the `Datapath` state machine. -/
def applyOp (st : SystemState) : DatapathOp → SystemState
  | .newEntry busy c t => (datapathNewEntry st busy c t).1
  | .reconnectEntry c t r => (datapathReconnectEntry st c t r).1
  | .recordGrace c g => datapathRecordGrace st c g
  | .finalize c t => datapathFinalize st c t

/-- Proxier start state: no servers, the full port range free, no clients. -/
def initialState : SystemState :=
  { pm := { servers := [],
            free_ports := List.range' MIN_SPECIFIC_SERVER_PORT
              (MAX_SPECIFIC_SERVER_PORT - MIN_SPECIFIC_SERVER_PORT) },
    ds := { num_clients := 0, clients_last_seen := [], reconnect_grace_periods := [] } }

/-- States reachable through the `Datapath` handler's operations. -/
inductive Reachable : SystemState → Prop
  | init : Reachable initialState
  | step (st : SystemState) (op : DatapathOp) : Reachable st → Reachable (applyOp st op)

/-- Inductive invariant: `num_clients` counts the `clients_last_seen`
entries, the last-seen keys are distinct, and every client with a
last-seen entry has a registered server. -/
def DatapathInv (st : SystemState) : Prop :=
  st.ds.num_clients = (st.ds.clients_last_seen.length : Int) ∧
  (st.ds.clients_last_seen.map Prod.fst).Nodup ∧
  (∀ c, alookup st.ds.clients_last_seen c ≠ none → alookup st.pm.servers c ≠ none)

theorem datapathInv_initial : DatapathInv initialState := by
  refine ⟨rfl, List.nodup_nil, ?_⟩
  intro c hc
  exact absurd rfl hc

theorem datapathInv_step (st : SystemState) (op : DatapathOp)
    (h : DatapathInv st) : DatapathInv (applyOp st op) := by
  obtain ⟨hcount, hnd, hsub⟩ := h
  match op with
  | .newEntry busy c t =>
    rw [applyOp, datapathNewEntry]
    match hcs : st.pm.create_specific_server busy c with
    | .assertionFailed => exact ⟨hcount, hnd, hsub⟩
    | .portExhausted => exact ⟨hcount, hnd, hsub⟩
    | .created server pm2 =>
      have hsrv : alookup st.pm.servers c = none := by
        revert hcs
        unfold ProxyManager.create_specific_server
        match h2 : alookup st.pm.servers c with
        | none => intro _; rfl
        | some s => intro hcs; exact CreateServerOutcome.noConfusion hcs
      have hlast : alookup st.ds.clients_last_seen c = none := by
        by_contra hne
        exact (hsub c hne) hsrv
      have hpm2 : pm2.servers = aset st.pm.servers c server ∧
          ∃ port remaining,
            getUnusedPort busy st.pm.free_ports = some (port, remaining) := by
        revert hcs
        unfold ProxyManager.create_specific_server
        rw [hsrv]
        match h3 : getUnusedPort busy st.pm.free_ports with
        | none => intro hcs; exact CreateServerOutcome.noConfusion hcs
        | some (port, remaining) =>
          intro hcs
          have h4 := (CreateServerOutcome.created.injEq .. ▸ hcs)
          refine ⟨?_, port, remaining, rfl⟩
          rw [← h4.2, ← h4.1]
      refine ⟨?_, ?_, ?_⟩
      · show st.ds.num_clients + 1 = ((aset st.ds.clients_last_seen c t).length : Int)
        rw [length_aset_of_not_mem _ _ _ hlast, hcount]
        push_cast
        ring
      · show ((aset st.ds.clients_last_seen c t).map Prod.fst).Nodup
        rw [keys_aset_of_not_mem _ _ _ hlast]
        rw [List.nodup_append]
        refine ⟨hnd, List.nodup_singleton c, ?_⟩
        intro x hx hmem
        rw [List.mem_singleton.mp hmem] at hx
        exact (alookup_eq_none_iff _ _).mp hlast hx
      · intro c2 hc2
        show alookup pm2.servers c2 ≠ none
        rw [hpm2.1]
        by_cases hcc : c2 = c
        · subst hcc
          rw [alookup_aset_self]
          exact fun h => Option.noConfusion h
        · rw [alookup_aset_ne _ _ _ _ hcc]
          refine hsub c2 ?_
          rwa [alookup_aset_ne _ _ _ _ hcc] at hc2
  | .reconnectEntry c t r =>
    rw [applyOp, datapathReconnectEntry]
    match hcs : alookup st.ds.clients_last_seen c with
    | none => exact ⟨hcount, hnd, hsub⟩
    | some prev =>
      have hne : alookup st.ds.clients_last_seen c ≠ none := by
        rw [hcs]; exact fun h => Option.noConfusion h
      refine ⟨?_, ?_, ?_⟩
      · show st.ds.num_clients = ((aset st.ds.clients_last_seen c t).length : Int)
        rw [length_aset_of_mem _ _ _ hne, hcount]
      · show ((aset st.ds.clients_last_seen c t).map Prod.fst).Nodup
        rw [keys_aset_of_mem _ _ _ hne]
        exact hnd
      · intro c2 hc2
        by_cases hcc : c2 = c
        · subst hcc
          exact hsub c2 hne
        · refine hsub c2 ?_
          rwa [alookup_aset_ne _ _ _ _ hcc] at hc2
  | .recordGrace c g =>
    rw [applyOp, datapathRecordGrace]
    exact ⟨hcount, hnd, hsub⟩
  | .finalize c t =>
    rw [applyOp]
    match hcs : alookup st.ds.clients_last_seen c with
    | none =>
      rw [datapathFinalize_none st c t hcs]
      exact ⟨hcount, hnd, hsub⟩
    | some last_seen =>
      by_cases hlt : t < last_seen
      · rw [datapathFinalize_newer st c t last_seen hcs hlt]
        exact ⟨hcount, hnd, hsub⟩
      · rw [datapathFinalize_cleanup st c t last_seen hcs hlt]
        have hne : alookup st.ds.clients_last_seen c ≠ none := by
          rw [hcs]; exact fun h => Option.noConfusion h
        refine ⟨?_, keys_aerase_nodup _ _ hnd, ?_⟩
        · show st.ds.num_clients - 1 = ((aerase st.ds.clients_last_seen c).length : Int)
          rw [hcount, length_aerase_of_mem _ _ hne]
          push_cast
          ring
        · intro c2 hc2
          show alookup (amodify st.pm.servers c (fun s => s.set_result none)) c2 ≠ none
          by_cases hcc : c2 = c
          · subst hcc
            rw [alookup_aerase_self_of_nodup _ _ hnd] at hc2
            exact absurd rfl hc2
          · rw [alookup_aerase_ne _ _ _ hcc] at hc2
            have hs := hsub c2 hc2
            intro hcontra
            refine hs ?_
            rw [alookup_eq_none_iff] at hcontra ⊢
            rwa [keys_amodify] at hcontra

theorem reachable_datapathInv (st : SystemState) (h : Reachable st) :
    DatapathInv st := by
  induction h with
  | init => exact datapathInv_initial
  | step st2 op _ ih => exact datapathInv_step st2 op ih

/-- Claim C5: in every state reachable through the `Datapath` handler's
clients-lock-atomic operations (new-connection entry, reconnect entry,
grace-period record, finalization), `num_clients` equals the number of
entries of `clients_last_seen`: the entry's increment comes with an
insertion and finalization's decrement with a deletion. -/
theorem datapath_num_clients_eq_last_seen (st : SystemState) (h : Reachable st) :
    st.ds.num_clients = (st.ds.clients_last_seen.length : Int) :=
  (reachable_datapathInv st h).1

/-- Witness for the C5 theorem: after one new connection the counter is 1
and `clients_last_seen` has one entry. -/
theorem datapath_num_clients_eq_last_seen_witness :
    (applyOp initialState (.newEntry (fun _ => false) "c1" 5)).ds.num_clients =
      ((applyOp initialState
        (.newEntry (fun _ => false) "c1" 5)).ds.clients_last_seen.length : Int) :=
  datapath_num_clients_eq_last_seen _
    (Reachable.step initialState (.newEntry (fun _ => false) "c1" 5) Reachable.init)

/-! ## Claims C6 and C7: finalization no-op and reconnect NOT_FOUND -/

/-- Claim C6: when the stream's client id is absent from
`clients_last_seen`, or a newer stream has updated its last-seen time past
this stream's start time, finalization changes no state — the counter, the
maps, and the server futures are untouched; and once a finalization has
cleaned up, re-running it is a no-op, so each stream decrements at most
once. -/
theorem datapathFinalize_noop_when_superseded (st : SystemState) (c : String)
    (t : Nat) (hnd : (st.ds.clients_last_seen.map Prod.fst).Nodup) :
    ((alookup st.ds.clients_last_seen c = none ∨
      (∃ s, alookup st.ds.clients_last_seen c = some s ∧ t < s)) →
      datapathFinalize st c t = st) ∧
    datapathFinalize (datapathFinalize st c t) c t = datapathFinalize st c t := by
  constructor
  · rintro (h | ⟨s, hs, hlt⟩)
    · exact datapathFinalize_none st c t h
    · exact datapathFinalize_newer st c t s hs hlt
  · match hcs : alookup st.ds.clients_last_seen c with
    | none =>
      rw [datapathFinalize_none st c t hcs, datapathFinalize_none st c t hcs]
    | some s =>
      by_cases hlt : t < s
      · rw [datapathFinalize_newer st c t s hcs hlt,
          datapathFinalize_newer st c t s hcs hlt]
      · rw [datapathFinalize_cleanup st c t s hcs hlt]
        refine datapathFinalize_none _ c t ?_
        show alookup (aerase st.ds.clients_last_seen c) c = none
        exact alookup_aerase_self_of_nodup _ _ hnd

/-- A session state with one active client `c2` whose stream reconnected
at time 5. -/
def graceExampleState : SystemState :=
  { pm := { servers := [("c2", { port := 23000, process_handle_future := .unset })],
            free_ports := [] },
    ds := { num_clients := 1, clients_last_seen := [("c2", 5)],
            reconnect_grace_periods := [("c2", 30)] } }

/-- Witness for the C6 theorem: the old stream (start time 3) finds the
newer last-seen time 5 and its finalization is a no-op; re-finalizing
changes nothing. -/
theorem datapathFinalize_noop_when_superseded_witness :
    datapathFinalize graceExampleState "c2" 3 = graceExampleState ∧
    datapathFinalize (datapathFinalize graceExampleState "c2" 3) "c2" 3 =
      datapathFinalize graceExampleState "c2" 3 :=
  ⟨(datapathFinalize_noop_when_superseded graceExampleState "c2" 3 (by decide)).1
      (Or.inr ⟨5, rfl, by decide⟩),
    (datapathFinalize_noop_when_superseded graceExampleState "c2" 3 (by decide)).2⟩

/-- Claim C7: a reconnecting `Datapath` for a client id absent from
`clients_last_seen` closes with NOT_FOUND (session already cleaned up) and
performs no state change at all. -/
theorem datapathReconnect_unknown_not_found (st : SystemState) (c : String)
    (t : Nat) (ready : Bool) (h : alookup st.ds.clients_last_seen c = none) :
    datapathReconnectEntry st c t ready =
      (st, .notFound
        "Attempted to reconnect a session that has already been cleaned up") := by
  unfold datapathReconnectEntry
  rw [h]

/-- Witness for the C7 theorem: reconnecting an unknown client on the
start state is refused with NOT_FOUND and leaves the state intact. -/
theorem datapathReconnect_unknown_not_found_witness :
    datapathReconnectEntry initialState "c9" 7 true =
      (initialState, .notFound
        "Attempted to reconnect a session that has already been cleaned up") :=
  datapathReconnect_unknown_not_found initialState "c9" 7 true rfl

/-! ## Claim C1: failed session initialization and reclamation -/

/-- Composite model of a `Datapath` connection whose session
initialization fails after registration (runtime-env agent failure, spawn
exception, or channel failure): the entry registers the backend and
increments the counter, the declared grace period is recorded from the
init request, the failing step itself changes no session state, the
handler yields the `ok=false` init response, and the `finally` cleanup
runs. -/
def datapathFailedInitRun (st : SystemState) (busy : Nat → Bool) (c : String)
    (start_time grace : Nat) : SystemState :=
  match datapathNewEntry st busy c start_time with
  | (st1, .registered _) =>
    datapathFinalize (datapathRecordGrace st1 c grace) c start_time
  | (st1, _) => st1

set_option maxRecDepth 8192 in
/-- Counterexample to claim C1: a fresh client whose init fails (for
example the agent answered FAILED) is still registered in
`ProxyManager.servers` after its finalization completes and a full reaper
pass, and its allocated port 23000 has not been returned to the free
list — `poll()` on the sentinel-resolved future returns `None`, so
`_check_processes` never collects it. -/
theorem failed_init_leaks_backend_and_port :
    alookup ((datapathFailedInitRun initialState (fun _ => false) "c1" 1
        0).pm.check_processes_pass).servers "c1" =
      some { port := 23000, process_handle_future := .resolved none } ∧
    ((datapathFailedInitRun initialState (fun _ => false) "c1" 1
        0).pm.check_processes_pass).free_ports.contains 23000 = false := by
  constructor
  · decide
  · decide

/-- Claim C1 (amended): after a failed init's finalization the backend
remains registered — the free list is unchanged and only the backend's
future is resolved — and a reaper pass removes a backend and returns its
port exactly when its `poll()` observation is non-`None`; a future holding
the failure sentinel always polls as `None`, so such a backend is never
reclaimed. -/
theorem failed_init_cleanup_behavior (st : SystemState) (c : String) (t : Nat)
    (s : SpecificServer) (hs : alookup st.pm.servers c = some s)
    (hnd : (st.pm.servers.map Prod.fst).Nodup) :
    ((datapathFinalize st c t).pm.free_ports = st.pm.free_ports ∧
      alookup (datapathFinalize st c t).pm.servers c ≠ none) ∧
    (s.poll = none → alookup st.pm.check_processes_pass.servers c = some s) ∧
    (s.poll ≠ none →
      alookup st.pm.check_processes_pass.servers c = none ∧
      s.port ∈ st.pm.check_processes_pass.free_ports) ∧
    (s.process_handle_future = .resolved none → s.poll = none) := by
  refine ⟨?_, ?_, ?_, ?_⟩
  · match hcs : alookup st.ds.clients_last_seen c with
    | none =>
      rw [datapathFinalize_none st c t hcs]
      exact ⟨rfl, by rw [hs]; exact fun h => Option.noConfusion h⟩
    | some last_seen =>
      by_cases hlt : t < last_seen
      · rw [datapathFinalize_newer st c t last_seen hcs hlt]
        exact ⟨rfl, by rw [hs]; exact fun h => Option.noConfusion h⟩
      · rw [datapathFinalize_cleanup st c t last_seen hcs hlt]
        refine ⟨rfl, ?_⟩
        show alookup (amodify st.pm.servers c (fun x => x.set_result none)) c ≠ none
        rw [alookup_amodify_self, hs]
        exact fun h => Option.noConfusion h
  · intro hpoll
    unfold ProxyManager.check_processes_pass
    refine alookup_filter_of_pred _ _ _ _ hs ?_
    show s.poll.isNone = true
    rw [hpoll]
    rfl
  · intro hpoll
    have hsome : s.poll.isSome = true := by
      match h2 : s.poll with
      | none => exact absurd h2 hpoll
      | some code => rfl
    constructor
    · unfold ProxyManager.check_processes_pass
      refine alookup_filter_of_not_pred _ _ _ _ hnd hs ?_
      show s.poll.isNone = false
      match h2 : s.poll with
      | none => exact absurd h2 hpoll
      | some code => rfl
    · unfold ProxyManager.check_processes_pass
      refine List.mem_append_right _ ?_
      refine List.mem_map.mpr ⟨(c, s), ?_, rfl⟩
      refine List.mem_filter.mpr ⟨mem_of_alookup_eq_some _ _ _ hs, hsome⟩
  · intro hfut
    unfold SpecificServer.poll
    rw [hfut]

/-- The session state that a failed init's finalization leaves behind. -/
def failedBackendState : SystemState :=
  { pm := failedBackendManager,
    ds := { num_clients := 0, clients_last_seen := [], reconnect_grace_periods := [] } }

/-- Witness for the amended C1 theorem: the sentinel-resolved backend of
`failedBackendState` survives a reaper pass. -/
theorem failed_init_cleanup_behavior_witness :
    alookup failedBackendState.pm.check_processes_pass.servers "c1" =
      some { port := 23000, process_handle_future := .resolved none } :=
  (failed_init_cleanup_behavior failedBackendState "c1" 0
    { port := 23000, process_handle_future := .resolved none } rfl (by decide)).2.1 rfl

/-! ## Claim C8: pre-session KV fallbacks in `RayletServicerProxy`

The shared internal KV (`ray.experimental.internal_kv`, external to the
proxier source) is abstracted by an `InternalKV` oracle; the KV call each
local branch makes is recorded alongside the response. -/

structure KVPutRequest where
  key : String
  value : String
  overwrite : Bool
deriving DecidableEq, Repr

structure KVGetRequest where
  key : String
deriving DecidableEq, Repr

structure KVDelRequest where
  key : String
deriving DecidableEq, Repr

/-- `prefix_arg` models the proto field named `prefix`. -/
structure KVListRequest where
  prefix_arg : String
deriving DecidableEq, Repr

structure KVExistsRequest where
  key : String
deriving DecidableEq, Repr

structure PinRuntimeEnvURIRequest where
  uri : String
  expiration_s : Int
deriving DecidableEq, Repr

structure KVPutResponse where
  already_exists : Bool
deriving DecidableEq, Repr

structure KVGetResponse where
  value : String
deriving DecidableEq, Repr

structure KVDelResponse where
deriving DecidableEq, Repr

structure KVListResponse where
  keys : List String
deriving DecidableEq, Repr

/-- `key_exists` models the proto field named `exists`. -/
structure KVExistsResponse where
  key_exists : Bool
deriving DecidableEq, Repr

structure ClientPinRuntimeEnvURIResponse where
deriving DecidableEq, Repr

/-- Oracle for the cluster's shared internal KV, queried by the
pre-session fallbacks. -/
structure InternalKV where
  kv_put : String → String → Bool → Bool
  kv_get : String → String
  kv_list : String → List String
  kv_exists : String → Bool

/-- The internal-KV call a local fallback branch performs. -/
inductive KVCall
  | putCall (key value : String) (overwrite : Bool)
  | getCall (key : String)
  | delCall (key : String)
  | listCall (px : String)
  | existsCall (key : String)
  | pinCall (uri : String) (expiration_s : Int)
deriving DecidableEq, Repr

/-- Observable outcome of a raylet-servicer handler. -/
inductive HandlerResult (ρ : Type)
  | forwardedRPC (method : String) (port : Nat)  -- same-named RPC on the backend stub
  | channelNotFound                              -- null channel: NOT_FOUND status
  | channelBlocked                               -- get_channel never returned
  | raisedError (msg : String)                   -- exception propagates
  | localResponse (call : KVCall) (resp : ρ)     -- answered from the internal KV
deriving DecidableEq, Repr

/-- Model of `RayletServicerProxy._call_inner_function`: look up the
channel for the client (blocking) and invoke the same-named RPC on the
backend stub over it; a null channel sets the NOT_FOUND code. -/
def call_inner_function {ρ : Type} (pm : ProxyManager) (client_id : String)
    (ready : Bool) (method : String) : HandlerResult ρ :=
  match pm.get_channel client_id ready with
  | .noChannel => .channelNotFound
  | .blocked => .channelBlocked
  | .raised msg => .raisedError msg
  | .channel port => .forwardedRPC method port

namespace RayletServicerProxy

/-- Model of `RayletServicerProxy.KVPut`. -/
def KVPut (pm : ProxyManager) (kv : InternalKV) (client_id : String)
    (ready : Bool) (req : KVPutRequest) :
    ProxyManager × HandlerResult KVPutResponse :=
  if pm.has_channel client_id then
    (pm, call_inner_function pm client_id ready "KVPut")
  else
    (pm, .localResponse (.putCall req.key req.value req.overwrite)
      { already_exists := kv.kv_put req.key req.value req.overwrite })

/-- Model of `RayletServicerProxy.KVGet`. -/
def KVGet (pm : ProxyManager) (kv : InternalKV) (client_id : String)
    (ready : Bool) (req : KVGetRequest) :
    ProxyManager × HandlerResult KVGetResponse :=
  if pm.has_channel client_id then
    (pm, call_inner_function pm client_id ready "KVGet")
  else
    (pm, .localResponse (.getCall req.key) { value := kv.kv_get req.key })

/-- Model of `RayletServicerProxy.KVDel`. -/
def KVDel (pm : ProxyManager) (kv : InternalKV) (client_id : String)
    (ready : Bool) (req : KVDelRequest) :
    ProxyManager × HandlerResult KVDelResponse :=
  if pm.has_channel client_id then
    (pm, call_inner_function pm client_id ready "KVDel")
  else
    (pm, .localResponse (.delCall req.key) {})

/-- Model of `RayletServicerProxy.KVList`. -/
def KVList (pm : ProxyManager) (kv : InternalKV) (client_id : String)
    (ready : Bool) (req : KVListRequest) :
    ProxyManager × HandlerResult KVListResponse :=
  if pm.has_channel client_id then
    (pm, call_inner_function pm client_id ready "KVList")
  else
    (pm, .localResponse (.listCall req.prefix_arg)
      { keys := kv.kv_list req.prefix_arg })

/-- Model of `RayletServicerProxy.KVExists`. -/
def KVExists (pm : ProxyManager) (kv : InternalKV) (client_id : String)
    (ready : Bool) (req : KVExistsRequest) :
    ProxyManager × HandlerResult KVExistsResponse :=
  if pm.has_channel client_id then
    (pm, call_inner_function pm client_id ready "KVExists")
  else
    (pm, .localResponse (.existsCall req.key)
      { key_exists := kv.kv_exists req.key })

/-- Model of `RayletServicerProxy.PinRuntimeEnvURI`. -/
def PinRuntimeEnvURI (pm : ProxyManager) (kv : InternalKV) (client_id : String)
    (ready : Bool) (req : PinRuntimeEnvURIRequest) :
    ProxyManager × HandlerResult ClientPinRuntimeEnvURIResponse :=
  if pm.has_channel client_id then
    (pm, call_inner_function pm client_id ready "PinRuntimeEnvURI")
  else
    (pm, .localResponse (.pinCall req.uri req.expiration_s) {})

end RayletServicerProxy

/-- Claim C8: with `has_channel` false, each of the six operations is
answered locally by the corresponding internal-KV call with the
corresponding response message, leaving the manager state untouched (no
backend registered, no port drawn) and forwarding nothing; with
`has_channel` true, the handler instead delegates to
`_call_inner_function` with the same-named method, which forwards the RPC
over the client's backend channel whenever that channel is obtainable. -/
theorem kv_pre_session_fallback (pm : ProxyManager) (kv : InternalKV)
    (c : String) (ready : Bool) (p1 : KVPutRequest) (p2 : KVGetRequest)
    (p3 : KVDelRequest) (p4 : KVListRequest) (p5 : KVExistsRequest)
    (p6 : PinRuntimeEnvURIRequest) :
    (pm.has_channel c = false →
      RayletServicerProxy.KVPut pm kv c ready p1 =
        (pm, .localResponse (.putCall p1.key p1.value p1.overwrite)
          { already_exists := kv.kv_put p1.key p1.value p1.overwrite }) ∧
      RayletServicerProxy.KVGet pm kv c ready p2 =
        (pm, .localResponse (.getCall p2.key) { value := kv.kv_get p2.key }) ∧
      RayletServicerProxy.KVDel pm kv c ready p3 =
        (pm, .localResponse (.delCall p3.key) {}) ∧
      RayletServicerProxy.KVList pm kv c ready p4 =
        (pm, .localResponse (.listCall p4.prefix_arg)
          { keys := kv.kv_list p4.prefix_arg }) ∧
      RayletServicerProxy.KVExists pm kv c ready p5 =
        (pm, .localResponse (.existsCall p5.key)
          { key_exists := kv.kv_exists p5.key }) ∧
      RayletServicerProxy.PinRuntimeEnvURI pm kv c ready p6 =
        (pm, .localResponse (.pinCall p6.uri p6.expiration_s) {})) ∧
    (pm.has_channel c = true →
      RayletServicerProxy.KVPut pm kv c ready p1 =
        (pm, call_inner_function pm c ready "KVPut") ∧
      RayletServicerProxy.KVGet pm kv c ready p2 =
        (pm, call_inner_function pm c ready "KVGet") ∧
      RayletServicerProxy.KVDel pm kv c ready p3 =
        (pm, call_inner_function pm c ready "KVDel") ∧
      RayletServicerProxy.KVList pm kv c ready p4 =
        (pm, call_inner_function pm c ready "KVList") ∧
      RayletServicerProxy.KVExists pm kv c ready p5 =
        (pm, call_inner_function pm c ready "KVExists") ∧
      RayletServicerProxy.PinRuntimeEnvURI pm kv c ready p6 =
        (pm, call_inner_function pm c ready "PinRuntimeEnvURI")) ∧
    (∀ s proc, alookup pm.servers c = some s →
      s.process_handle_future = .resolved (some proc) → ready = true →
      RayletServicerProxy.KVPut pm kv c ready p1 =
        (pm, .forwardedRPC "KVPut" s.port) ∧
      RayletServicerProxy.KVGet pm kv c ready p2 =
        (pm, .forwardedRPC "KVGet" s.port) ∧
      RayletServicerProxy.KVDel pm kv c ready p3 =
        (pm, .forwardedRPC "KVDel" s.port) ∧
      RayletServicerProxy.KVList pm kv c ready p4 =
        (pm, .forwardedRPC "KVList" s.port) ∧
      RayletServicerProxy.KVExists pm kv c ready p5 =
        (pm, .forwardedRPC "KVExists" s.port) ∧
      RayletServicerProxy.PinRuntimeEnvURI pm kv c ready p6 =
        (pm, .forwardedRPC "PinRuntimeEnvURI" s.port)) := by
  refine ⟨?_, ?_, ?_⟩
  · intro hfalse
    refine ⟨?_, ?_, ?_, ?_, ?_, ?_⟩ <;>
      simp [RayletServicerProxy.KVPut, RayletServicerProxy.KVGet,
        RayletServicerProxy.KVDel, RayletServicerProxy.KVList,
        RayletServicerProxy.KVExists, RayletServicerProxy.PinRuntimeEnvURI, hfalse]
  · intro htrue
    refine ⟨?_, ?_, ?_, ?_, ?_, ?_⟩ <;>
      simp [RayletServicerProxy.KVPut, RayletServicerProxy.KVGet,
        RayletServicerProxy.KVDel, RayletServicerProxy.KVList,
        RayletServicerProxy.KVExists, RayletServicerProxy.PinRuntimeEnvURI, htrue]
  · intro s proc hs hfut hready
    subst hready
    have htrue : pm.has_channel c = true := by
      unfold ProxyManager.has_channel ProxyManager.get_server_for_client
      rw [hs]
      simp [SpecificServer.is_ready, hfut]
    have hchan : pm.get_channel c true = .channel s.port := by
      unfold ProxyManager.get_channel ProxyManager.get_server_for_client
      rw [hs]
      simp [SpecificServer.wait_ready, hfut]
    refine ⟨?_, ?_, ?_, ?_, ?_, ?_⟩ <;>
      simp [RayletServicerProxy.KVPut, RayletServicerProxy.KVGet,
        RayletServicerProxy.KVDel, RayletServicerProxy.KVList,
        RayletServicerProxy.KVExists, RayletServicerProxy.PinRuntimeEnvURI,
        htrue, call_inner_function, hchan]

/-- A concrete internal-KV oracle for witnesses. -/
def exampleKV : InternalKV :=
  { kv_put := fun _ _ _ => false, kv_get := fun _ => "stored",
    kv_list := fun _ => ["a", "b"], kv_exists := fun _ => true }

/-- Witness for the C8 theorem: with no backend for the client, KVGet is
answered from the internal KV and the manager state is unchanged. -/
theorem kv_pre_session_fallback_witness :
    RayletServicerProxy.KVGet { servers := [], free_ports := [] } exampleKV
        "c1" true { key := "k" } =
      ({ servers := [], free_ports := [] },
        .localResponse (.getCall "k") { value := exampleKV.kv_get "k" }) :=
  ((kv_pre_session_fallback { servers := [], free_ports := [] } exampleKV "c1"
    true { key := "k", value := "v", overwrite := true } { key := "k" }
    { key := "k" } { prefix_arg := "p" } { key := "k" }
    { uri := "u", expiration_s := 0 }).1 rfl).2.1

/-! ## Claim C9: `RequestIteratorProxy.__next__` -/

/-- The dynamic type of a raised Python exception, as far as the adapter
observes it: exactly `grpc.RpcError`, a strict subclass of it (such as
`grpc._Rendezvous`), or an unrelated exception type. -/
inductive ExcType
  | grpcRpcError
  | rpcErrorSubclass (name : String)
  | otherException (name : String)
deriving DecidableEq, Repr

/-- Whether `except grpc.RpcError` catches an exception of this type
(isinstance semantics: the class or any of its subclasses). -/
def catchesRpcError : ExcType → Bool
  | .grpcRpcError => true
  | .rpcErrorSubclass _ => true
  | .otherException _ => false

/-- One step of the wrapped request iterator: yield a value or raise. -/
inductive IterStep (α : Type)
  | yields (a : α)
  | raises (e : ExcType)
deriving DecidableEq, Repr

/-- Observable outcome of `RequestIteratorProxy.__next__`. -/
inductive NextOutcome (α : Type)
  | item (a : α)
  | stopIteration
  | raised (e : ExcType)
deriving DecidableEq, Repr

/-- Model of `RequestIteratorProxy.__next__`: `except grpc.RpcError`
catches the base error and its subclasses; the `type(e) is not
grpc.RpcError` identity check then re-raises everything but exactly
`grpc.RpcError`, which becomes `StopIteration`; exceptions the except
clause does not catch propagate unchanged. -/
def requestIteratorNext {α : Type} (step : IterStep α) : NextOutcome α :=
  match step with
  | .yields a => .item a
  | .raises e =>
    if catchesRpcError e then
      if e = .grpcRpcError then .stopIteration else .raised e
    else .raised e

/-- Claim C9: `__next__` converts exactly the base `grpc.RpcError` type
into `StopIteration`, forwards items unchanged, and re-raises every strict
subclass of `grpc.RpcError` and every other exception unchanged. -/
theorem requestIterator_exact_type_check {α : Type} (a : α) (e : ExcType) :
    requestIteratorNext (.yields a) = .item a ∧
    requestIteratorNext (.raises e) =
      (if e = .grpcRpcError then (.stopIteration : NextOutcome α)
        else .raised e) := by
  refine ⟨rfl, ?_⟩
  match e with
  | .grpcRpcError => rfl
  | .rpcErrorSubclass name => rfl
  | .otherException name => rfl

/-! ## Claim C10: `DataServicerProxy.modify_connection_info_resp` -/

/-- Fields of the `connection_info` payload: `num_clients` plus the
remaining fields carried opaquely. -/
structure ConnectionInfoResponse where
  num_clients : Int
  rest : String
deriving DecidableEq, Repr

/-- The oneof payload (`WhichOneof("type")`) of a `DataResponse`. -/
inductive DataOneof
  | init (ok : Bool) (msg : String)
  | connection_info (info : ConnectionInfoResponse)
  | connection_cleanup (payload : String)
  | otherVariant (tag : String) (payload : String)
deriving DecidableEq, Repr

/-- Model of `ray_client_pb2.DataResponse`: request id plus the oneof. -/
structure DataResponse where
  req_id : Nat
  oneof : DataOneof
deriving DecidableEq, Repr

/-- Model of `DataServicerProxy.modify_connection_info_resp`: a response
whose variant is not `connection_info` is returned as is; a
`connection_info` response is deep-copied (`CopyFrom`) and the copy's
`num_clients` overwritten with the proxier's aggregate count.  The input
message is never mutated, which the functional embedding renders by
construction. -/
def modify_connection_info_resp (ds : DataServicer) (resp : DataResponse) :
    DataResponse :=
  match resp.oneof with
  | .connection_info info =>
    { resp with oneof := .connection_info { info with num_clients := ds.num_clients } }
  | _ => resp

/-- Claim C10: `modify_connection_info_resp` returns its input unchanged
for every variant other than `connection_info`, and for `connection_info`
returns a message that differs from the input only in the
`connection_info.num_clients` field, which carries the proxier's count. -/
theorem modify_connection_info_frame (ds : DataServicer) (resp : DataResponse) :
    ((∀ info, resp.oneof ≠ .connection_info info) →
      modify_connection_info_resp ds resp = resp) ∧
    (∀ info, resp.oneof = .connection_info info →
      modify_connection_info_resp ds resp =
        { req_id := resp.req_id,
          oneof := .connection_info
            { num_clients := ds.num_clients, rest := info.rest } }) := by
  constructor
  · intro hne
    unfold modify_connection_info_resp
    match h : resp.oneof with
    | .init ok msg => rfl
    | .connection_info info => exact absurd h (hne info)
    | .connection_cleanup payload => rfl
    | .otherVariant tag payload => rfl
  · intro info h
    unfold modify_connection_info_resp
    rw [h]

/-- Witness for the C10 theorem: a `connection_info` response with count 1
is rewritten to the proxier's count 7, preserving `req_id` and the other
payload fields. -/
theorem modify_connection_info_frame_witness :
    modify_connection_info_resp
        { num_clients := 7, clients_last_seen := [], reconnect_grace_periods := [] }
        { req_id := 3, oneof := .connection_info { num_clients := 1, rest := "r" } } =
      { req_id := 3, oneof := .connection_info { num_clients := 7, rest := "r" } } :=
  (modify_connection_info_frame
    { num_clients := 7, clients_last_seen := [], reconnect_grace_periods := [] }
    { req_id := 3, oneof := .connection_info { num_clients := 1, rest := "r" } }).2
    { num_clients := 1, rest := "r" } rfl

end Proxier
